import Mathlib

/-!
Verification of the credential-pool manager, the response translators and
the streaming re-encoders of an LLM protocol gateway.

The token manager (loadAccounts, getToken, refreshToken) is embedded as
explicit state passing over a pool state; the effect of the environment
(clock, configuration blob, OAuth token endpoint) is packaged in a record
of inputs.  The response translators and the two streaming re-encoders are
embedded as pure functions over the parsed upstream chunk shape.
-/

namespace AntVercel

/-- Subscription tier of an account (the TypeScript union FREE | PRO | ULTRA). -/
inductive Tier
  | FREE
  | PRO
  | ULTRA
deriving DecidableEq, Repr

/-- AccountToken record: access and refresh tokens plus expiry bookkeeping.
Timestamps and lifetimes are integer seconds, as in the source. -/
structure AccountToken where
  access_token : String
  refresh_token : String
  expires_in : Int
  expiry_timestamp : Int
  project_id : Option String
deriving DecidableEq, Repr

/-- Account record.  The optional boolean flags model the TypeScript
optional fields (absent = undefined). -/
structure Account where
  id : String
  email : String
  token : AccountToken
  disabled : Option Bool
  proxy_disabled : Option Bool
  subscription_tier : Option Tier
deriving DecidableEq, Repr

/-- JavaScript truthiness of an optional boolean (undefined is falsy). -/
def obool (b : Option Bool) : Bool :=
  b.getD false

/-- The sort key used by the comparator in loadAccounts:
ULTRA gives 0, PRO gives 1, FREE gives 2, anything else gives 3. -/
def tierPriority : Option Tier → Nat
  | some Tier.ULTRA => 0
  | some Tier.PRO => 1
  | some Tier.FREE => 2
  | none => 3

/-- One step of the stable insertion sort modelling the Array.prototype.sort
call in loadAccounts (stable, ascending in tierPriority): the inserted
account comes from earlier in the input than every element of the list, so
it moves past exactly the elements whose key is strictly smaller. -/
def insertByTier (a : Account) : List Account → List Account
  | [] => [a]
  | b :: bs =>
    if tierPriority b.subscription_tier < tierPriority a.subscription_tier then
      b :: insertByTier a bs
    else
      a :: b :: bs

/-- Stable sort by tierPriority, modelling
accounts.sort((a, b) => tierPriority(a) - tierPriority(b)). -/
def sortByTier : List Account → List Account
  | [] => []
  | a :: rest => insertByTier a (sortByTier rest)

/-- The filter applied by loadAccounts: drop accounts whose disabled or
proxy_disabled flag is truthy. -/
def enabledOnly (l : List Account) : List Account :=
  l.filter fun acc => !(obool acc.disabled) && !(obool acc.proxy_disabled)

/-- Model of loadAccounts.  The blob argument is the outcome of
JSON.parse(process.env.ACCOUNTS_JSON): `some parsed` is a successfully
parsed account array, `none` is malformed JSON.  On malformed JSON the
parse throws before the assignment to the module-level accounts variable,
so the pool keeps its previous value `prevPool` and the catch branch
returns an empty array.  Result: (new module pool, returned array). -/
def loadAccounts (blob : Option (List Account)) (prevPool : List Account) :
    List Account × List Account :=
  match blob with
  | none => (prevPool, [])
  | some parsed =>
    let pool := sortByTier (enabledOnly parsed)
    (pool, pool)

/-- Behaviour of one call to the OAuth token endpoint for one account. -/
inductive TokenEndpointResult
  | httpError
  | transportError
  | success (access_token : String) (expires_in : Int)
deriving DecidableEq, Repr

/-- Environment of the token manager: the clock (Date.now(), milliseconds),
the parsed ACCOUNTS_JSON blob, the process-wide client credentials, and the
token endpoint's behaviour per account. -/
structure TMEnv where
  nowMs : Int
  blob : Option (List Account)
  creds : Option (String × String)
  refreshResp : Account → TokenEndpointResult

/-- Math.floor(Date.now() / 1000); all modelled clock values are
nonnegative so the rounding convention of Int division is irrelevant. -/
def TMEnv.nowSec (e : TMEnv) : Int :=
  e.nowMs / 1000

/-- Model of refreshToken: returns the new access token (or none) together
with the resulting account.  The account is mutated only on a successful
endpoint response, and then exactly in its access_token, expires_in and
expiry_timestamp fields. -/
def refreshToken (env : TMEnv) (account : Account) : Option String × Account :=
  match env.creds with
  | none => (none, account)
  | some _ =>
    match env.refreshResp account with
    | TokenEndpointResult.httpError => (none, account)
    | TokenEndpointResult.transportError => (none, account)
    | TokenEndpointResult.success tok exp =>
      (some tok,
        { account with
          token :=
            { access_token := tok
              refresh_token := account.token.refresh_token
              expires_in := exp
              expiry_timestamp := env.nowSec + exp
              project_id := account.token.project_id } })

/-- Module-level mutable state of the token manager. -/
structure TMState where
  accounts : List Account
  currentIndex : Nat
  lastRefreshTime : Int
deriving DecidableEq, Repr

section SortLemmas

theorem mem_insertByTier {x a : Account} {l : List Account} :
    x ∈ insertByTier a l ↔ x = a ∨ x ∈ l := by
  induction l with
  | nil => simp [insertByTier]
  | cons b bs ih =>
    by_cases h : tierPriority b.subscription_tier < tierPriority a.subscription_tier
    · rw [insertByTier, if_pos h]
      simp only [List.mem_cons, ih]
      tauto
    · rw [insertByTier, if_neg h]
      simp only [List.mem_cons]

theorem pairwise_insertByTier {a : Account} {l : List Account}
    (h : List.Pairwise
      (fun x y => tierPriority x.subscription_tier ≤ tierPriority y.subscription_tier) l) :
    List.Pairwise
      (fun x y => tierPriority x.subscription_tier ≤ tierPriority y.subscription_tier)
      (insertByTier a l) := by
  induction l with
  | nil => simp [insertByTier]
  | cons b bs ih =>
    rcases List.pairwise_cons.mp h with ⟨hb, hbs⟩
    by_cases hc : tierPriority b.subscription_tier < tierPriority a.subscription_tier
    · rw [insertByTier, if_pos hc]
      refine List.pairwise_cons.mpr ⟨?_, ih hbs⟩
      intro x hx
      rcases mem_insertByTier.mp hx with rfl | hx
      · exact Nat.le_of_lt hc
      · exact hb x hx
    · rw [insertByTier, if_neg hc]
      refine List.pairwise_cons.mpr ⟨?_, h⟩
      intro x hx
      rcases List.mem_cons.mp hx with rfl | hx
      · exact Nat.le_of_not_lt hc
      · exact Nat.le_trans (Nat.le_of_not_lt hc) (hb x hx)

theorem pairwise_sortByTier (l : List Account) :
    List.Pairwise
      (fun x y => tierPriority x.subscription_tier ≤ tierPriority y.subscription_tier)
      (sortByTier l) := by
  induction l with
  | nil => exact List.Pairwise.nil
  | cons a rest ih => exact pairwise_insertByTier ih

theorem filter_insertByTier (a : Account) (l : List Account) (p : Nat) :
    (insertByTier a l).filter (fun x => tierPriority x.subscription_tier == p) =
      if tierPriority a.subscription_tier = p then
        a :: l.filter (fun x => tierPriority x.subscription_tier == p)
      else
        l.filter (fun x => tierPriority x.subscription_tier == p) := by
  induction l with
  | nil =>
    by_cases h : tierPriority a.subscription_tier = p
    · simp [insertByTier, h]
    · simp [insertByTier, h]
  | cons b bs ih =>
    by_cases hc : tierPriority b.subscription_tier < tierPriority a.subscription_tier
    · rw [insertByTier, if_pos hc]
      by_cases h : tierPriority a.subscription_tier = p
      · have hbp : ¬ tierPriority b.subscription_tier = p := by
          intro hbeq
          rw [h] at hc
          exact absurd hbeq (Nat.ne_of_lt hc)
        simp [List.filter_cons, hbp, ih, h]
      · by_cases hbp : tierPriority b.subscription_tier = p
        · simp [List.filter_cons, hbp, ih, h]
        · simp [List.filter_cons, hbp, ih, h]
    · rw [insertByTier, if_neg hc]
      by_cases h : tierPriority a.subscription_tier = p
      · simp [List.filter_cons, h]
      · simp [List.filter_cons, h]

theorem filter_sortByTier (l : List Account) (p : Nat) :
    (sortByTier l).filter (fun x => tierPriority x.subscription_tier == p) =
      l.filter (fun x => tierPriority x.subscription_tier == p) := by
  induction l with
  | nil => rfl
  | cons a rest ih =>
    rw [sortByTier, filter_insertByTier, ih]
    by_cases h : tierPriority a.subscription_tier = p
    · simp [List.filter_cons, h]
    · simp [List.filter_cons, h]

theorem mem_sortByTier {x : Account} {l : List Account} :
    x ∈ sortByTier l ↔ x ∈ l := by
  induction l with
  | nil => simp [sortByTier]
  | cons a rest ih =>
    rw [sortByTier, mem_insertByTier, ih]
    simp

end SortLemmas

/-- C3: after a reload on a well-formed account list, the pool contains no
account whose disabled or proxy_disabled flag is truthy; accounts of
strictly higher tier priority come strictly earlier; and within one tier
the accounts appear exactly as in the (filtered) input, in input order. -/
theorem loadAccounts_pool_invariants (l prev : List Account) :
    (∀ a ∈ (loadAccounts (some l) prev).1,
        obool a.disabled = false ∧ obool a.proxy_disabled = false)
    ∧ (∀ i j : Fin (loadAccounts (some l) prev).1.length,
        tierPriority ((loadAccounts (some l) prev).1.get i).subscription_tier <
          tierPriority ((loadAccounts (some l) prev).1.get j).subscription_tier →
        (i : Nat) < (j : Nat))
    ∧ (∀ p : Nat,
        (loadAccounts (some l) prev).1.filter
            (fun a => tierPriority a.subscription_tier == p) =
          (enabledOnly l).filter (fun a => tierPriority a.subscription_tier == p)) := by
  refine ⟨?_, ?_, ?_⟩
  · intro a ha
    have hmem : a ∈ enabledOnly l := by
      have := mem_sortByTier.mp ha
      exact this
    have hcond := List.of_mem_filter hmem
    have hboth := Bool.and_eq_true_iff.mp hcond
    constructor
    · have := hboth.1
      cases hval : obool a.disabled
      · rfl
      · rw [hval] at this
        exact absurd this (by decide)
    · have := hboth.2
      cases hval : obool a.proxy_disabled
      · rfl
      · rw [hval] at this
        exact absurd this (by decide)
  · intro i j hlt
    have hpw := pairwise_sortByTier (enabledOnly l)
    by_contra hle
    have hji : (j : Nat) ≤ (i : Nat) := Nat.le_of_not_lt hle
    rcases Nat.lt_or_ge (j : Nat) (i : Nat) with hjilt | hige
    · have := (List.pairwise_iff_get.mp hpw) j i (Fin.lt_def.mpr hjilt)
      exact absurd hlt (Nat.not_lt_of_le this)
    · have hij : (i : Nat) = (j : Nat) := Nat.le_antisymm hige hji
      have : i = j := Fin.ext hij
      subst this
      exact absurd hlt (Nat.lt_irrefl _)
  · intro p
    exact filter_sortByTier (enabledOnly l) p

/-- A disabled ULTRA account for the reload witness input. -/
def disabledAccount : Account :=
  { id := "idD"
    email := "disabled@example.com"
    token :=
      { access_token := "accD"
        refresh_token := "refD"
        expires_in := 3600
        expiry_timestamp := 99999
        project_id := none }
    disabled := some true
    proxy_disabled := none
    subscription_tier := some Tier.ULTRA }

/-- An enabled ULTRA account for the reload witness input. -/
def ultraAccount : Account :=
  { id := "idU"
    email := "ultra@example.com"
    token :=
      { access_token := "accU"
        refresh_token := "refU"
        expires_in := 3600
        expiry_timestamp := 99999
        project_id := none }
    disabled := none
    proxy_disabled := none
    subscription_tier := some Tier.ULTRA }

/-- An enabled FREE account for the reload witness input. -/
def freeAccount : Account :=
  { id := "idF"
    email := "free@example.com"
    token :=
      { access_token := "accF"
        refresh_token := "refF"
        expires_in := 3600
        expiry_timestamp := 99999
        project_id := none }
    disabled := none
    proxy_disabled := none
    subscription_tier := some Tier.FREE }

/-- Reload witness input: FREE first, then a disabled account, then ULTRA. -/
def wPoolInput : List Account :=
  [freeAccount, disabledAccount, ultraAccount]

theorem loadAccounts_pool_invariants_witness :
    (obool ultraAccount.disabled = false ∧ obool ultraAccount.proxy_disabled = false)
    ∧ ((0 : Nat) < (1 : Nat))
    ∧ (loadAccounts (some wPoolInput) []).1.filter
          (fun a => tierPriority a.subscription_tier == 2) =
        (enabledOnly wPoolInput).filter
          (fun a => tierPriority a.subscription_tier == 2) :=
  ⟨(loadAccounts_pool_invariants wPoolInput []).1 ultraAccount (by decide),
   (loadAccounts_pool_invariants wPoolInput []).2.1
     ⟨0, by decide⟩ ⟨1, by decide⟩ (by decide),
   (loadAccounts_pool_invariants wPoolInput []).2.2 2⟩

/-- A concrete enabled PRO account used in several concrete evaluations. -/
def sampleAccount : Account :=
  { id := "id0"
    email := "user@example.com"
    token :=
      { access_token := "acc0"
        refresh_token := "ref0"
        expires_in := 3600
        expiry_timestamp := 99999
        project_id := none }
    disabled := none
    proxy_disabled := none
    subscription_tier := some Tier.PRO }

/-- C4 counterexample: reload on a malformed blob with a previously
nonempty pool leaves the pool at its previous nonempty contents, not
empty — the claim "the pool becomes empty on parse failure" is false. -/
theorem loadAccounts_parseFailure_pool_not_emptied :
    (loadAccounts none [sampleAccount]).1 = [sampleAccount]
    ∧ (loadAccounts none [sampleAccount]).1 ≠ [] := by
  exact ⟨rfl, by simp [loadAccounts]⟩

/-- C4 amended: on parse failure loadAccounts logs and returns an empty
array, never throwing to the caller (the model is a total function), but
the module-level pool keeps its previous contents unchanged — it is empty
after the call only if it was already empty before. -/
theorem loadAccounts_parseFailure_soft (prev : List Account) :
    (loadAccounts none prev).2 = [] ∧ (loadAccounts none prev).1 = prev :=
  ⟨rfl, rfl⟩

/-- C5: refreshToken is atomic with respect to the account.  On an HTTP
error or transport failure from the token endpoint (and likewise when the
client credentials are absent) it returns no token and the account is
returned with every field unchanged; on success it returns the new access
token and updates exactly access_token, expires_in and expiry_timestamp,
the latter to now + expires_in, keeping refresh_token and project_id. -/
theorem refreshToken_atomic (env : TMEnv) (account : Account) :
    (env.refreshResp account = TokenEndpointResult.httpError →
      refreshToken env account = (none, account))
    ∧ (env.refreshResp account = TokenEndpointResult.transportError →
      refreshToken env account = (none, account))
    ∧ (env.creds = none → refreshToken env account = (none, account))
    ∧ (∀ tok exp, env.creds ≠ none →
        env.refreshResp account = TokenEndpointResult.success tok exp →
        refreshToken env account =
          (some tok,
            { account with
              token :=
                { access_token := tok
                  refresh_token := account.token.refresh_token
                  expires_in := exp
                  expiry_timestamp := env.nowSec + exp
                  project_id := account.token.project_id } })) := by
  refine ⟨?_, ?_, ?_, ?_⟩
  · intro h
    cases hc : env.creds with
    | none => simp [refreshToken, hc]
    | some c => simp [refreshToken, hc, h]
  · intro h
    cases hc : env.creds with
    | none => simp [refreshToken, hc]
    | some c => simp [refreshToken, hc, h]
  · intro h
    simp [refreshToken, h]
  · intro tok exp hcreds h
    cases hc : env.creds with
    | none => exact absurd hc hcreds
    | some c => simp [refreshToken, hc, h]

/-- Environment for the concrete refresh witnesses: endpoint rejects. -/
def wEnvHttpErr : TMEnv :=
  { nowMs := 1700000000000
    blob := some [sampleAccount]
    creds := some ("cid", "csecret")
    refreshResp := fun _ => TokenEndpointResult.httpError }

/-- Environment for the concrete refresh witnesses: endpoint succeeds. -/
def wEnvSuccess : TMEnv :=
  { nowMs := 1700000000000
    blob := some [sampleAccount]
    creds := some ("cid", "csecret")
    refreshResp := fun _ => TokenEndpointResult.success "newAcc" 600 }

theorem refreshToken_atomic_witness :
    refreshToken wEnvHttpErr sampleAccount = (none, sampleAccount)
    ∧ refreshToken wEnvSuccess sampleAccount =
        (some "newAcc",
          { sampleAccount with
            token :=
              { access_token := "newAcc"
                refresh_token := sampleAccount.token.refresh_token
                expires_in := 600
                expiry_timestamp := wEnvSuccess.nowSec + 600
                project_id := sampleAccount.token.project_id } }) :=
  ⟨(refreshToken_atomic wEnvHttpErr sampleAccount).1 rfl,
   (refreshToken_atomic wEnvSuccess sampleAccount).2.2.2 "newAcc" 600 (by simp [wEnvSuccess]) rfl⟩

/-- The reload-if-needed prelude of getToken: reload when the pool is
empty or the last reload is more than 5 minutes old; a reload also
updates lastRefreshTime to the current clock. -/
def reloadIfNeeded (env : TMEnv) (s : TMState) : TMState :=
  if s.accounts.length = 0 ∨ env.nowMs - s.lastRefreshTime > 5 * 60 * 1000 then
    { accounts := (loadAccounts env.blob s.accounts).1
      currentIndex := s.currentIndex
      lastRefreshTime := env.nowMs }
  else s

/-- The account picked by the round-robin cursor:
accounts[currentIndex % accounts.length]. -/
def selectedAccount (s : TMState) (h : s.accounts.length ≠ 0) : Account :=
  s.accounts.get ⟨s.currentIndex % s.accounts.length, Nat.mod_lt _ (Nat.pos_of_ne_zero h)⟩

/-- Model of getToken, indexed by fuel to account for the source's
unbounded recursion (return getToken() on refresh failure).  The first
component is `none` when the fuel runs out with the recursion still
going, `some none` for the source's null return (no accounts), and
`some (some (account, token))` for a successful acquisition. -/
def getToken (env : TMEnv) : Nat → TMState → Option (Option (Account × String)) × TMState
  | 0, s => (none, s)
  | fuel + 1, s0 =>
    let s := reloadIfNeeded env s0
    if h : s.accounts.length = 0 then
      (some none, s)
    else
      let account := selectedAccount s h
      let s2 : TMState := { s with currentIndex := s.currentIndex + 1 }
      if env.nowSec ≥ account.token.expiry_timestamp - 300 then
        match refreshToken env account with
        | (some tok, account2) =>
          (some (some (account2, tok)),
            { s2 with accounts := s2.accounts.set (s.currentIndex % s.accounts.length) account2 })
        | (none, _) => getToken env fuel s2
      else
        (some (some (account, account.token.access_token)), s2)

/-- A single enabled account whose token is within 300 seconds of expiry
(badEnv.nowSec = 1000, expiry_timestamp = 1000). -/
def badAccount : Account :=
  { id := "id1"
    email := "expired@example.com"
    token :=
      { access_token := "oldAcc"
        refresh_token := "oldRef"
        expires_in := 3600
        expiry_timestamp := 1000
        project_id := none }
    disabled := none
    proxy_disabled := none
    subscription_tier := none }

/-- Environment in which every refresh attempt fails at the token
endpoint (non-success HTTP status). -/
def badEnv : TMEnv :=
  { nowMs := 1000000
    blob := some [badAccount]
    creds := some ("cid", "csecret")
    refreshResp := fun _ => TokenEndpointResult.httpError }

theorem get_of_single_account (a : Account) (n : Fin 1) : List.get [a] n = a := by
  match n with
  | ⟨0, _⟩ => rfl

theorem selectedAccount_single (a : Account) (i : Nat) (t : Int)
    (h : (TMState.mk [a] i t).accounts.length ≠ 0) :
    selectedAccount { accounts := [a], currentIndex := i, lastRefreshTime := t } h = a := by
  unfold selectedAccount
  exact get_of_single_account a _

theorem selectedAccount_mem (s : TMState) (h : s.accounts.length ≠ 0) :
    selectedAccount s h ∈ s.accounts :=
  List.get_mem _ _ _

/-- C1: getToken does NOT terminate when every account fails refresh.
With a pool of one expiring account whose refresh always fails, the
recursion never returns: for every amount of fuel, the fuel-indexed model
is still recursing (first component none), so the source function never
reaches the null "no credential available" result, contradicting the
required cap at pool length. -/
theorem getToken_allRefreshFail_diverges (fuel i : Nat) :
    (getToken badEnv fuel
      { accounts := [badAccount], currentIndex := i, lastRefreshTime := 1000000 }).1 =
      none := by
  induction fuel generalizing i with
  | zero => rfl
  | succ fuel ih =>
    have hre : reloadIfNeeded badEnv
        { accounts := [badAccount], currentIndex := i, lastRefreshTime := 1000000 } =
        { accounts := [badAccount], currentIndex := i, lastRefreshTime := 1000000 } := by
      rw [reloadIfNeeded, if_neg]
      intro hcase
      rcases hcase with hlen | htime
      · simp at hlen
      · norm_num [badEnv] at htime
    simp only [getToken, hre]
    rw [dif_neg (show ¬ (TMState.mk [badAccount] i 1000000).accounts.length = 0 by simp)]
    rw [selectedAccount_single]
    rw [if_pos (by decide :
      badEnv.nowSec ≥ badAccount.token.expiry_timestamp - 300)]
    have hrf : refreshToken badEnv badAccount = (none, badAccount) := rfl
    rw [hrf]
    exact ih (i + 1)

/-- One fresh acquisition: when the pool is nonempty, the last reload is
recent, and the selected token is not near expiry, getToken returns the
account at position cursor mod length with its stored access token, and
the only state change is the cursor advancing by one. -/
theorem getToken_fresh_step (env : TMEnv) (s : TMState) (fuel : Nat)
    (hne : s.accounts.length ≠ 0)
    (hfr : ¬ env.nowMs - s.lastRefreshTime > 5 * 60 * 1000)
    (htok : ∀ a ∈ s.accounts, ¬ env.nowSec ≥ a.token.expiry_timestamp - 300) :
    getToken env (fuel + 1) s =
      (some (some (selectedAccount s hne, (selectedAccount s hne).token.access_token)),
        { s with currentIndex := s.currentIndex + 1 }) := by
  have hcond : ¬ (s.accounts.length = 0 ∨ env.nowMs - s.lastRefreshTime > 5 * 60 * 1000) := by
    intro hcase
    rcases hcase with hlen | htime
    · exact hne hlen
    · exact hfr htime
  have hre : reloadIfNeeded env s = s := by
    rw [reloadIfNeeded, if_neg hcond]
  simp only [getToken, hre]
  rw [dif_neg hne]
  rw [if_neg (htok _ (selectedAccount_mem s hne))]

/-- N successive top-level calls to getToken, each with enough fuel to
cover the recursion bound. -/
def runGetToken (env : TMEnv) : Nat → TMState → List (Option (Account × String)) × TMState
  | 0, s => ([], s)
  | k + 1, s =>
    let r := getToken env (s.accounts.length + 1) s
    let rest := runGetToken env k r.2
    (r.1.join :: rest.1, rest.2)

theorem runGetToken_fresh (env : TMEnv) (k : Nat) :
    ∀ s : TMState,
      s.accounts.length ≠ 0 →
      ¬ env.nowMs - s.lastRefreshTime > 5 * 60 * 1000 →
      (∀ a ∈ s.accounts, ¬ env.nowSec ≥ a.token.expiry_timestamp - 300) →
      (runGetToken env k s).1 =
        (List.range k).map (fun i =>
          (s.accounts.get? ((s.currentIndex + i) % s.accounts.length)).map
            (fun a => (a, a.token.access_token))) := by
  induction k with
  | zero =>
    intro s _ _ _
    rfl
  | succ k ih =>
    intro s hne hfr htok
    have hstep := getToken_fresh_step env s s.accounts.length hne hfr htok
    simp only [runGetToken, hstep]
    have hrest := ih { s with currentIndex := s.currentIndex + 1 } hne hfr htok
    simp only [hrest]
    rw [List.range_succ_eq_map]
    rw [List.map_cons, List.map_map]
    congr 1
    · rw [Nat.add_zero, List.get?_eq_get (Nat.mod_lt _ (Nat.pos_of_ne_zero hne))]
      rfl
    · apply List.map_congr_left
      intro i _
      have h1 : s.currentIndex + 1 + i = s.currentIndex + (i + 1) := by omega
      simp only [Function.comp_apply]
      rw [h1]

/-- The cyclic index sequence visits each pool position exactly once. -/
theorem rotationIndices_perm (c N : Nat) (h0 : 0 < N) :
    ((List.range N).map (fun i => (c + i) % N)).Perm (List.range N) := by
  have hnodup : ((List.range N).map (fun i => (c + i) % N)).Nodup := by
    refine List.Nodup.map_on ?_ (List.nodup_range N)
    intro x hx y hy hxy
    have hx' : x < N := List.mem_range.mp hx
    have hy' : y < N := List.mem_range.mp hy
    have hmod : x % N = y % N := Nat.ModEq.add_left_cancel' c hxy
    rw [Nat.mod_eq_of_lt hx', Nat.mod_eq_of_lt hy'] at hmod
    exact hmod
  have hsub : ((List.range N).map (fun i => (c + i) % N)) ⊆ List.range N := by
    intro x hx
    rcases List.mem_map.mp hx with ⟨i, _, rfl⟩
    exact List.mem_range.mpr (Nat.mod_lt _ h0)
  have hsp := List.subperm_of_subset hnodup hsub
  refine hsp.perm_of_length_le ?_
  simp

/-- C2: with a nonempty pool of size N, a recent reload (so no call
reloads) and no token near expiry (so no refresh and the cursor advances
by exactly one per acquisition), N consecutive getToken calls return, in
order, the accounts at positions (cursor + i) mod N, and that index
sequence selects every pool position exactly once. -/
theorem getToken_roundRobin (env : TMEnv) (s : TMState) (N : Nat)
    (hN : s.accounts.length = N) (h0 : 0 < N)
    (hfr : ¬ env.nowMs - s.lastRefreshTime > 5 * 60 * 1000)
    (htok : ∀ a ∈ s.accounts, ¬ env.nowSec ≥ a.token.expiry_timestamp - 300) :
    (runGetToken env N s).1 =
      (List.range N).map (fun i =>
        (s.accounts.get? ((s.currentIndex + i) % N)).map
          (fun a => (a, a.token.access_token)))
    ∧ ((List.range N).map (fun i => (s.currentIndex + i) % N)).Perm (List.range N) := by
  subst hN
  exact ⟨runGetToken_fresh env _ s (Nat.pos_iff_ne_zero.mp h0) hfr htok,
    rotationIndices_perm s.currentIndex _ h0⟩

/-- A second enabled account, with a far-away expiry, for the round-robin
witness pool. -/
def sampleAccount2 : Account :=
  { id := "id2"
    email := "user2@example.com"
    token :=
      { access_token := "acc2"
        refresh_token := "ref2"
        expires_in := 3600
        expiry_timestamp := 99999
        project_id := none }
    disabled := none
    proxy_disabled := none
    subscription_tier := some Tier.FREE }

/-- Environment and state for the round-robin witness: two fresh
accounts, recent reload. -/
def wEnvRR : TMEnv :=
  { nowMs := 2000000
    blob := some [sampleAccount, sampleAccount2]
    creds := some ("cid", "csecret")
    refreshResp := fun _ => TokenEndpointResult.httpError }

def wStateRR : TMState :=
  { accounts := [sampleAccount, sampleAccount2]
    currentIndex := 0
    lastRefreshTime := 2000000 }

theorem getToken_roundRobin_witness :
    (runGetToken wEnvRR 2 wStateRR).1 =
      (List.range 2).map (fun i =>
        (wStateRR.accounts.get? ((wStateRR.currentIndex + i) % 2)).map
          (fun a => (a, a.token.access_token)))
    ∧ ((List.range 2).map (fun i => (wStateRR.currentIndex + i) % 2)).Perm (List.range 2) :=
  getToken_roundRobin wEnvRR wStateRR 2 rfl (by decide) (by decide) (by decide)

/-- One part of an upstream candidate's content. -/
structure GeminiPart where
  text : Option String
deriving DecidableEq, Repr

/-- Content of an upstream candidate (ordered parts). -/
structure GeminiCandidateContent where
  parts : List GeminiPart
deriving DecidableEq, Repr

/-- One upstream candidate: optional content and optional finish reason
(the source compares the finish reason against the strings STOP and
MAX_TOKENS, so it is kept as a raw optional string). -/
structure GeminiCandidate where
  content : Option GeminiCandidateContent
  finishReason : Option String
deriving DecidableEq, Repr

/-- Upstream usage metadata; each counter is optional. -/
structure UsageMetadata where
  promptTokenCount : Option Int
  candidatesTokenCount : Option Int
  totalTokenCount : Option Int
deriving DecidableEq, Repr

/-- A parsed upstream response or stream chunk.  An absent or empty
candidates array is modelled uniformly as the empty list (the source
reads candidates?.[0], which treats both alike). -/
structure GeminiResponse where
  candidates : List GeminiCandidate
  usageMetadata : Option UsageMetadata
deriving DecidableEq, Repr

/-- JavaScript truthiness of an optional string (undefined and the
empty string are falsy). -/
def strTruthy : Option String → Bool
  | none => false
  | some s => s != ""

/-- candidate.content?.parts?.map(p => p.text || '').join('') || '' :
concatenation, in order, of the text of every part. -/
def candidateText (c : GeminiCandidate) : String :=
  match c.content with
  | none => ""
  | some ct => String.join (ct.parts.map fun p => p.text.getD "")

/-- Finish-reason mapping of the non-streaming OpenAI translator
(convertResponse): STOP to stop, MAX_TOKENS to length, else stop. -/
def openaiFinishReason (fr : Option String) : String :=
  if fr = some "STOP" then "stop"
  else if fr = some "MAX_TOKENS" then "length"
  else "stop"

/-- Finish-reason mapping of the non-streaming Claude translator
(convertGeminiToClaude): STOP to end_turn, MAX_TOKENS to max_tokens,
else end_turn. -/
def claudeStopReason (fr : Option String) : String :=
  if fr = some "STOP" then "end_turn"
  else if fr = some "MAX_TOKENS" then "max_tokens"
  else "end_turn"

/-- One choice of the converted OpenAI chat completion. -/
structure OpenAIChoice where
  content : String
  finish_reason : String
deriving DecidableEq, Repr

/-- Usage block of the converted OpenAI chat completion. -/
structure OpenAIUsage where
  prompt_tokens : Int
  completion_tokens : Int
  total_tokens : Int
deriving DecidableEq, Repr

/-- The converted OpenAI chat completion (the id and created fields are
clock-derived identifiers and are not modelled). -/
structure OpenAIChatResponse where
  model : String
  choices : List OpenAIChoice
  usage : OpenAIUsage
deriving DecidableEq, Repr

/-- Model of convertResponse (Gemini response to OpenAI completion). -/
def convertResponse (g : GeminiResponse) (model : String) : OpenAIChatResponse :=
  match g.candidates.head? with
  | none =>
    { model := model
      choices := []
      usage := { prompt_tokens := 0, completion_tokens := 0, total_tokens := 0 } }
  | some cand =>
    { model := model
      choices := [{ content := candidateText cand
                    finish_reason := openaiFinishReason cand.finishReason }]
      usage :=
        { prompt_tokens := (g.usageMetadata.bind UsageMetadata.promptTokenCount).getD 0
          completion_tokens := (g.usageMetadata.bind UsageMetadata.candidatesTokenCount).getD 0
          total_tokens := (g.usageMetadata.bind UsageMetadata.totalTokenCount).getD 0 } }

/-- Usage block of the converted Claude message. -/
structure ClaudeUsage where
  input_tokens : Int
  output_tokens : Int
deriving DecidableEq, Repr

/-- The converted Claude message (single text block; the id field is a
clock-derived identifier and is not modelled). -/
structure ClaudeMsgResponse where
  model : String
  contentText : String
  stop_reason : String
  usage : ClaudeUsage
deriving DecidableEq, Repr

/-- Model of convertGeminiToClaude (Gemini response to Claude message).
Note that the usage block is read from usageMetadata independently of
whether a candidate exists. -/
def convertGeminiToClaude (g : GeminiResponse) (model : String) : ClaudeMsgResponse :=
  { model := model
    contentText := (g.candidates.head?.map candidateText).getD ""
    stop_reason := claudeStopReason (g.candidates.head?.bind GeminiCandidate.finishReason)
    usage :=
      { input_tokens := (g.usageMetadata.bind UsageMetadata.promptTokenCount).getD 0
        output_tokens := (g.usageMetadata.bind UsageMetadata.candidatesTokenCount).getD 0 } }

/-- candidates?.[0]?.content?.parts?.[0]?.text || '' as read by the
OpenAI streaming re-encoder in forwardChatCompletion. -/
def streamChunkTextOpenAI (g : GeminiResponse) : String :=
  (((g.candidates.head?.bind GeminiCandidate.content).bind
      (fun ct => ct.parts.head?)).bind GeminiPart.text).getD ""

/-- candidates?.[0]?.content?.parts?.[0]?.text || '' as read by the
Claude streaming re-encoder in the messages route. -/
def streamChunkTextClaude (g : GeminiResponse) : String :=
  (((g.candidates.head?.bind GeminiCandidate.content).bind
      (fun ct => ct.parts.head?)).bind GeminiPart.text).getD ""

/-- One complete line of the upstream SSE stream, after the data: prefix
test: the literal [DONE] sentinel, a JSON-parsed chunk, or a line whose
JSON parse failed (logged and skipped). -/
inductive UpstreamLine
  | doneMark
  | dataChunk (g : GeminiResponse)
  | malformedLine
deriving DecidableEq, Repr

/-- Events emitted by the OpenAI streaming re-encoder: a chunk with an
optional content delta and an optional finish_reason, or the [DONE]
terminator line. -/
inductive OpenAIStreamEvent
  | chunk (deltaContent : Option String) (finish_reason : Option String)
  | doneMark
deriving DecidableEq, Repr

/-- Events emitted by the Claude streaming re-encoder. -/
inductive ClaudeStreamEvent
  | messageStart
  | contentBlockStart
  | contentBlockDelta (text : String)
  | contentBlockStop
  | messageDelta (stop_reason : String) (output_tokens : Int)
  | messageStop
deriving DecidableEq, Repr

/-- Events emitted by forwardChatCompletion's stream loop for one
upstream line: a [DONE] sentinel is re-emitted verbatim, a malformed
line is logged and skipped, and a parsed chunk yields a content-delta
chunk when its extracted text is nonempty followed by a finish chunk
with the hard-coded value stop when it carries a finish reason. -/
def forwardChatCompletionLine (l : UpstreamLine) : List OpenAIStreamEvent :=
  match l with
  | UpstreamLine.doneMark => [OpenAIStreamEvent.doneMark]
  | UpstreamLine.malformedLine => []
  | UpstreamLine.dataChunk g =>
    (if streamChunkTextOpenAI g = "" then []
     else [OpenAIStreamEvent.chunk (some (streamChunkTextOpenAI g)) none])
    ++ (if strTruthy (g.candidates.head?.bind GeminiCandidate.finishReason) then
          [OpenAIStreamEvent.chunk none (some "stop")]
        else [])

/-- The whole OpenAI re-encoded stream: the per-line events in order,
then the [DONE] terminator appended after the upstream stream ends. -/
def forwardChatCompletionStream (lines : List UpstreamLine) : List OpenAIStreamEvent :=
  (lines.map forwardChatCompletionLine).flatten ++ [OpenAIStreamEvent.doneMark]

/-- Events emitted by the Claude messages route's stream loop for one
upstream line, with the messageStarted flag threaded through: on the
first parsed chunk, message_start and content_block_start are emitted;
nonempty extracted text yields a content_block_delta; a chunk carrying a
finish reason yields content_block_stop, a message_delta with the
hard-coded stop_reason end_turn, and message_stop.  The upstream [DONE]
sentinel is ignored and malformed lines are logged and skipped. -/
def claudeProcessLine (started : Bool) (l : UpstreamLine) : Bool × List ClaudeStreamEvent :=
  match l with
  | UpstreamLine.doneMark => (started, [])
  | UpstreamLine.malformedLine => (started, [])
  | UpstreamLine.dataChunk g =>
    (true,
      (if started then []
       else [ClaudeStreamEvent.messageStart, ClaudeStreamEvent.contentBlockStart])
      ++ (if streamChunkTextClaude g = "" then []
          else [ClaudeStreamEvent.contentBlockDelta (streamChunkTextClaude g)])
      ++ (if strTruthy (g.candidates.head?.bind GeminiCandidate.finishReason) then
            [ClaudeStreamEvent.contentBlockStop,
             ClaudeStreamEvent.messageDelta "end_turn"
               ((g.usageMetadata.bind UsageMetadata.candidatesTokenCount).getD 0),
             ClaudeStreamEvent.messageStop]
          else []))

def claudeStreamGo : Bool → List UpstreamLine → List ClaudeStreamEvent
  | _, [] => []
  | started, l :: ls =>
    (claudeProcessLine started l).2 ++ claudeStreamGo (claudeProcessLine started l).1 ls

/-- The whole Claude re-encoded stream (the loop starts with
messageStarted = false and the output is closed with no extra event). -/
def claudeMessagesStream (lines : List UpstreamLine) : List ClaudeStreamEvent :=
  claudeStreamGo false lines

/-- A synthetic upstream text chunk carrying one part with this text. -/
def textChunk (s : String) : GeminiResponse :=
  { candidates := [{ content := some { parts := [{ text := some s }] }, finishReason := none }]
    usageMetadata := none }

/-- A synthetic upstream finish chunk (STOP, no content). -/
def finishChunk : GeminiResponse :=
  { candidates := [{ content := none, finishReason := some "STOP" }]
    usageMetadata := none }

/-- C7: on the upstream sequence text "Hello", text " world", finish,
the Claude re-encoder emits exactly message_start, content_block_start,
delta Hello, delta world, content_block_stop, message_delta, message_stop,
and the OpenAI re-encoder emits exactly chunk Hello, chunk world, a
finish chunk, and the [DONE] terminator. -/
theorem stream_reencoders_event_order :
    claudeMessagesStream
        [UpstreamLine.dataChunk (textChunk "Hello"),
         UpstreamLine.dataChunk (textChunk " world"),
         UpstreamLine.dataChunk finishChunk] =
      [ClaudeStreamEvent.messageStart, ClaudeStreamEvent.contentBlockStart,
       ClaudeStreamEvent.contentBlockDelta "Hello",
       ClaudeStreamEvent.contentBlockDelta " world",
       ClaudeStreamEvent.contentBlockStop,
       ClaudeStreamEvent.messageDelta "end_turn" 0,
       ClaudeStreamEvent.messageStop]
    ∧ forwardChatCompletionStream
        [UpstreamLine.dataChunk (textChunk "Hello"),
         UpstreamLine.dataChunk (textChunk " world"),
         UpstreamLine.dataChunk finishChunk] =
      [OpenAIStreamEvent.chunk (some "Hello") none,
       OpenAIStreamEvent.chunk (some " world") none,
       OpenAIStreamEvent.chunk none (some "stop"),
       OpenAIStreamEvent.doneMark] := by
  constructor
  · rfl
  · rfl

/-- A synthetic upstream chunk signalling MAX_TOKENS with some text. -/
def maxTokensChunk : GeminiResponse :=
  { candidates :=
      [{ content := some { parts := [{ text := some "truncated" }] }
         finishReason := some "MAX_TOKENS" }]
    usageMetadata := none }

/-- C6 counterexample: when a stream chunk carries the upstream
MAX_TOKENS signal, the terminal message-level delta of the Claude
re-encoder carries end_turn (not max_tokens) and the terminal chunk of
the OpenAI re-encoder carries stop (not length): the streaming half of
the claim is false. -/
theorem stream_finish_reason_hardcoded :
    claudeMessagesStream [UpstreamLine.dataChunk maxTokensChunk] =
      [ClaudeStreamEvent.messageStart, ClaudeStreamEvent.contentBlockStart,
       ClaudeStreamEvent.contentBlockDelta "truncated",
       ClaudeStreamEvent.contentBlockStop,
       ClaudeStreamEvent.messageDelta "end_turn" 0,
       ClaudeStreamEvent.messageStop]
    ∧ forwardChatCompletionStream [UpstreamLine.dataChunk maxTokensChunk] =
      [OpenAIStreamEvent.chunk (some "truncated") none,
       OpenAIStreamEvent.chunk none (some "stop"),
       OpenAIStreamEvent.doneMark]
    ∧ ("end_turn" : String) ≠ "max_tokens"
    ∧ ("stop" : String) ≠ "length" := by
  refine ⟨rfl, rfl, by decide, by decide⟩

/-- C6 amended: in the completed (non-streaming) translators, STOP maps
to the natural-stop value, MAX_TOKENS to the length-truncated value, and
any other or absent signal to the natural-stop value; in the streaming
re-encoders, the terminal message-level delta and finish chunk always
carry the natural-stop value (end_turn and stop) regardless of the
upstream signal. -/
theorem finishReason_mapping (fr : Option String) (g : GeminiResponse)
    (started : Bool) (m : String) :
    openaiFinishReason (some "STOP") = "stop"
    ∧ openaiFinishReason (some "MAX_TOKENS") = "length"
    ∧ (fr ≠ some "STOP" → fr ≠ some "MAX_TOKENS" → openaiFinishReason fr = "stop")
    ∧ claudeStopReason (some "STOP") = "end_turn"
    ∧ claudeStopReason (some "MAX_TOKENS") = "max_tokens"
    ∧ (fr ≠ some "STOP" → fr ≠ some "MAX_TOKENS" → claudeStopReason fr = "end_turn")
    ∧ (convertGeminiToClaude g m).stop_reason =
        claudeStopReason (g.candidates.head?.bind GeminiCandidate.finishReason)
    ∧ (∀ cand, g.candidates.head? = some cand →
        (convertResponse g m).choices =
          [{ content := candidateText cand
             finish_reason := openaiFinishReason cand.finishReason }])
    ∧ (∀ r u, ClaudeStreamEvent.messageDelta r u ∈
        (claudeProcessLine started (UpstreamLine.dataChunk g)).2 → r = "end_turn")
    ∧ (∀ d r, OpenAIStreamEvent.chunk d (some r) ∈
        forwardChatCompletionLine (UpstreamLine.dataChunk g) → r = "stop") := by
  refine ⟨rfl, rfl, ?_, rfl, rfl, ?_, rfl, ?_, ?_, ?_⟩
  · intro h1 h2
    rw [openaiFinishReason, if_neg h1, if_neg h2]
  · intro h1 h2
    rw [claudeStopReason, if_neg h1, if_neg h2]
  · intro cand hc
    rw [convertResponse, hc]
  · intro r u hmem
    rw [claudeProcessLine] at hmem
    simp only [List.mem_append] at hmem
    rcases hmem with (hmem | hmem) | hmem
    · rcases em (started = true) with hs | hs
      · simp [hs] at hmem
      · have : started = false := by
          cases started
          · rfl
          · exact absurd rfl hs
        simp [this] at hmem
    · rcases em (streamChunkTextClaude g = "") with hs | hs
      · simp [hs] at hmem
      · simp [hs] at hmem
    · rcases em (strTruthy (g.candidates.head?.bind GeminiCandidate.finishReason) = true)
        with hs | hs
      · rw [if_pos hs] at hmem
        simp at hmem
        exact hmem.1
      · rw [if_neg hs] at hmem
        simp at hmem
  · intro d r hmem
    rw [forwardChatCompletionLine] at hmem
    simp only [List.mem_append] at hmem
    rcases hmem with hmem | hmem
    · rcases em (streamChunkTextOpenAI g = "") with hs | hs
      · simp [hs] at hmem
      · simp [hs] at hmem
    · rcases em (strTruthy (g.candidates.head?.bind GeminiCandidate.finishReason) = true)
        with hs | hs
      · rw [if_pos hs] at hmem
        simp at hmem
        exact hmem.2
      · rw [if_neg hs] at hmem
        simp at hmem

theorem finishReason_mapping_witness :
    openaiFinishReason (some "SAFETY") = "stop"
    ∧ claudeStopReason (some "SAFETY") = "end_turn"
    ∧ (convertResponse (textChunk "hi") "m").choices =
        [{ content := candidateText { content := some { parts := [{ text := some "hi" }] }, finishReason := none }
           finish_reason := openaiFinishReason none }]
    ∧ ("end_turn" : String) = "end_turn"
    ∧ ("stop" : String) = "stop" := by
  have h := finishReason_mapping (some "SAFETY") maxTokensChunk false "m"
  refine ⟨h.2.2.1 (by decide) (by decide),
    (h.2.2.2.2.2.1 : _) (by decide) (by decide),
    ?_, ?_, ?_⟩
  · exact (finishReason_mapping none (textChunk "hi") false "m").2.2.2.2.2.2.2.1
      { content := some { parts := [{ text := some "hi" }] }, finishReason := none } rfl
  · exact (finishReason_mapping none maxTokensChunk false "m").2.2.2.2.2.2.2.2.1
      "end_turn" 0 (by decide)
  · exact (finishReason_mapping none maxTokensChunk false "m").2.2.2.2.2.2.2.2.2
      none "stop" (by decide)

/-- An upstream response with no candidates but with usage metadata. -/
def noCandidateResponse : GeminiResponse :=
  { candidates := []
    usageMetadata :=
      some { promptTokenCount := some 5
             candidatesTokenCount := some 7
             totalTokenCount := some 12 } }

/-- C8 counterexample: on a response with no candidates carrying usage
metadata, the OpenAI translator does return empty choices with all-zero
usage, but the Claude translator copies the nonzero usage counters from
the metadata, so its usage counters are not all zero. -/
theorem noCandidates_usage_not_zero :
    convertResponse noCandidateResponse "m" =
      { model := "m", choices := []
        usage := { prompt_tokens := 0, completion_tokens := 0, total_tokens := 0 } }
    ∧ (convertGeminiToClaude noCandidateResponse "m").usage =
        { input_tokens := 5, output_tokens := 7 }
    ∧ ((5 : Int) ≠ 0) := by
  refine ⟨rfl, rfl, by decide⟩

/-- C8 amended: on a response with no candidates, the OpenAI translator
returns a successful response with empty choices and all-zero usage; the
Claude translator returns a successful response with an empty text block
and stop_reason end_turn, but with usage counters copied from the
response's usage metadata, so they are zero only when that metadata is
absent. -/
theorem noCandidates_conversion (g : GeminiResponse) (m : String)
    (h : g.candidates = []) :
    convertResponse g m =
      { model := m, choices := []
        usage := { prompt_tokens := 0, completion_tokens := 0, total_tokens := 0 } }
    ∧ convertGeminiToClaude g m =
        { model := m
          contentText := ""
          stop_reason := "end_turn"
          usage :=
            { input_tokens := (g.usageMetadata.bind UsageMetadata.promptTokenCount).getD 0
              output_tokens :=
                (g.usageMetadata.bind UsageMetadata.candidatesTokenCount).getD 0 } } := by
  constructor
  · rw [convertResponse, h]
    rfl
  · rw [convertGeminiToClaude, h]
    rfl

theorem noCandidates_conversion_witness :
    convertResponse noCandidateResponse "m" =
      { model := "m", choices := []
        usage := { prompt_tokens := 0, completion_tokens := 0, total_tokens := 0 } }
    ∧ convertGeminiToClaude noCandidateResponse "m" =
        { model := "m"
          contentText := ""
          stop_reason := "end_turn"
          usage :=
            { input_tokens :=
                (noCandidateResponse.usageMetadata.bind UsageMetadata.promptTokenCount).getD 0
              output_tokens :=
                (noCandidateResponse.usageMetadata.bind
                  UsageMetadata.candidatesTokenCount).getD 0 } } :=
  noCandidates_conversion noCandidateResponse "m" rfl

/-- An upstream chunk whose first candidate carries two text parts. -/
def twoPartChunk : GeminiResponse :=
  { candidates :=
      [{ content := some { parts := [{ text := some "Hello" }, { text := some " world" }] }
         finishReason := none }]
    usageMetadata := none }

/-- C10: both streaming re-encoders read only parts[0].text of the first
candidate — the extracted text does not depend on the later parts — while
the non-streaming translators concatenate the text of every part; on a
concrete two-part chunk, the streams emit only the first part's text and
the completed translators return the concatenation. -/
theorem streaming_reads_only_first_part :
    (∀ (p : GeminiPart) (rest : List GeminiPart) (fr : Option String)
        (um : Option UsageMetadata) (cs : List GeminiCandidate),
      streamChunkTextOpenAI
          { candidates := { content := some { parts := p :: rest }, finishReason := fr } :: cs
            usageMetadata := um } = p.text.getD ""
      ∧ streamChunkTextClaude
          { candidates := { content := some { parts := p :: rest }, finishReason := fr } :: cs
            usageMetadata := um } = p.text.getD "")
    ∧ (∀ (p : GeminiPart) (rest : List GeminiPart) (fr : Option String),
      candidateText { content := some { parts := p :: rest }, finishReason := fr } =
        String.join ((p :: rest).map fun q => q.text.getD ""))
    ∧ forwardChatCompletionStream [UpstreamLine.dataChunk twoPartChunk] =
        [OpenAIStreamEvent.chunk (some "Hello") none, OpenAIStreamEvent.doneMark]
    ∧ claudeMessagesStream [UpstreamLine.dataChunk twoPartChunk] =
        [ClaudeStreamEvent.messageStart, ClaudeStreamEvent.contentBlockStart,
         ClaudeStreamEvent.contentBlockDelta "Hello"]
    ∧ (convertResponse twoPartChunk "m").choices =
        [{ content := "Hello world", finish_reason := "stop" }]
    ∧ (convertGeminiToClaude twoPartChunk "m").contentText = "Hello world" := by
  refine ⟨?_, ?_, rfl, rfl, rfl, rfl⟩
  · intro p rest fr um cs
    exact ⟨rfl, rfl⟩
  · intro p rest fr
    rfl

/-- Image source of a Claude image block. -/
structure ClaudeImageSource where
  media_type : String
  data : String
deriving DecidableEq, Repr

/-- One block of structured Claude message content (tagged by its type
string, as in the loosely-typed source). -/
structure ClaudeBlock where
  type : String
  text : Option String
  source : Option ClaudeImageSource
deriving DecidableEq, Repr

/-- Claude message content: a plain string or an array of blocks. -/
inductive ClaudeContent
  | str (s : String)
  | blocks (bs : List ClaudeBlock)
deriving DecidableEq, Repr

inductive ClaudeRole
  | user
  | assistant
deriving DecidableEq, Repr

structure ClaudeMessage where
  role : ClaudeRole
  content : ClaudeContent
deriving DecidableEq, Repr

/-- A parsed Claude request body in which every field may be missing,
as after an unvalidated JSON parse. -/
structure ClaudeRequestBody where
  model : Option String
  messages : Option (List ClaudeMessage)
  max_tokens : Option Int
  system : Option String
  stop_sequences : Option (List String)
deriving DecidableEq, Repr

/-- One part of a Gemini request turn. -/
inductive GeminiReqPart
  | textPart (t : String)
  | inlineData (mimeType : String) (data : String)
deriving DecidableEq, Repr

/-- One turn of the Gemini request. -/
structure GeminiReqContent where
  role : String
  parts : List GeminiReqPart
deriving DecidableEq, Repr

/-- The Gemini request built by convertClaudeToGemini.  The temperature
and topP generation parameters are floating-point pass-throughs and are
not modelled; the remaining fields are. -/
structure GeminiRequest where
  contents : List GeminiReqContent
  maxOutputTokens : Option Int
  stopSequences : Option (List String)
  systemInstruction : Option String
deriving DecidableEq, Repr

/-- Parts produced for one content block: a text block with truthy text
yields a text part, an image block with a source yields an inline-data
part, anything else is dropped. -/
def convertClaudeBlock (b : ClaudeBlock) : List GeminiReqPart :=
  if b.type = "text" then
    match b.text with
    | some t => if t = "" then [] else [GeminiReqPart.textPart t]
    | none => []
  else if b.type = "image" then
    match b.source with
    | some src => [GeminiReqPart.inlineData src.media_type src.data]
    | none => []
  else []

/-- One Claude message converted to a Gemini turn (assistant maps to
model, user maps to user). -/
def convertClaudeMessage (msg : ClaudeMessage) : GeminiReqContent :=
  { role := match msg.role with
      | ClaudeRole.assistant => "model"
      | ClaudeRole.user => "user"
    parts := match msg.content with
      | ClaudeContent.str s => [GeminiReqPart.textPart s]
      | ClaudeContent.blocks bs => (bs.map convertClaudeBlock).flatten }

/-- Model of convertClaudeToGemini, applied to the request's messages
array (the source iterates request.messages unconditionally). -/
def convertClaudeToGemini (messages : List ClaudeMessage) (b : ClaudeRequestBody) :
    GeminiRequest :=
  { contents := messages.map convertClaudeMessage
    maxOutputTokens := b.max_tokens
    stopSequences := b.stop_sequences
    systemInstruction :=
      match b.system with
      | some s => if s = "" then none else some s
      | none => none }

/-- Outcome of the chat-completions route between body parse and the
upstream call. -/
inductive ChatRouteStep
  | badRequestModel
  | badRequestMessages
  | noAccounts503
  | forwardedToTranslation
deriving DecidableEq, Repr

/-- A chat-completions body after JSON parse; the validation inspects
only the presence of model and the presence/emptiness of the messages
array, so the message element type is a parameter. -/
structure ChatCompletionBodyOpt (Msg : Type) where
  model : Option String
  messages : Option (List Msg)

/-- Control flow of the chat-completions POST handler after a successful
JSON parse: validate model, then messages (missing, non-array or empty),
then acquire a credential, then translate and forward. -/
def chatCompletionsPhase {Msg : Type} (b : ChatCompletionBodyOpt Msg)
    (tokenAvailable : Bool) : ChatRouteStep :=
  if strTruthy b.model = false then ChatRouteStep.badRequestModel
  else
    match b.messages with
    | none => ChatRouteStep.badRequestMessages
    | some [] => ChatRouteStep.badRequestMessages
    | some (_ :: _) =>
      if tokenAvailable then ChatRouteStep.forwardedToTranslation
      else ChatRouteStep.noAccounts503

/-- Outcome of the Claude messages route between body parse and the
upstream call. -/
inductive ClaudeRouteStep
  | badRequest
  | overloaded529
  | translated (g : GeminiRequest)
  | threwInTranslation
deriving DecidableEq, Repr

/-- Control flow of the Claude messages POST handler after a successful
JSON parse: no required-field validation is performed; the handler goes
straight to credential acquisition and then calls the request translator
on body.messages.  When messages is absent, the for..of loop inside the
translator throws a TypeError (which escapes the handler, since the
translator call sits outside its try block). -/
def claudeMessagesPhase (b : ClaudeRequestBody) (tokenAvailable : Bool) :
    ClaudeRouteStep :=
  if tokenAvailable = false then ClaudeRouteStep.overloaded529
  else
    match b.messages with
    | none => ClaudeRouteStep.threwInTranslation
    | some msgs => ClaudeRouteStep.translated (convertClaudeToGemini msgs b)

/-- A Claude body with no model field but a well-formed messages array. -/
def missingModelBody : ClaudeRequestBody :=
  { model := none
    messages := some [{ role := ClaudeRole.user, content := ClaudeContent.str "Hi" }]
    max_tokens := some 1024
    system := none
    stop_sequences := none }

/-- A Claude body with no messages field. -/
def missingMessagesBody : ClaudeRequestBody :=
  { model := some "claude-3-sonnet-20240229"
    messages := none
    max_tokens := some 1024
    system := none
    stop_sequences := none }

/-- C9 counterexample: the Claude messages handler performs no
required-field validation.  A body with no model field reaches the
request translator (and is not answered with a 4xx error), and a body
with no messages field makes the translator throw instead of producing
a 4xx protocol error body. -/
theorem claude_route_no_validation :
    claudeMessagesPhase missingModelBody true =
      ClaudeRouteStep.translated
        (convertClaudeToGemini
          [{ role := ClaudeRole.user, content := ClaudeContent.str "Hi" }]
          missingModelBody)
    ∧ claudeMessagesPhase missingModelBody true ≠ ClaudeRouteStep.badRequest
    ∧ claudeMessagesPhase missingMessagesBody true = ClaudeRouteStep.threwInTranslation
    ∧ claudeMessagesPhase missingMessagesBody true ≠ ClaudeRouteStep.badRequest := by
  refine ⟨rfl, by decide, rfl, by decide⟩

/-- C9 amended: the chat-completions handler does return a 400 error for
a missing (or falsy) model and for a missing, non-array or empty
messages field, before credential acquisition and translation; the
Claude messages handler performs no such validation — once a credential
is available, any body is passed to the request translator (a missing
messages array making the translator throw), never yielding a 4xx
protocol error body. -/
theorem route_field_validation {Msg : Type} (b : ChatCompletionBodyOpt Msg)
    (c : ClaudeRequestBody) (tok : Bool) :
    (strTruthy b.model = false → chatCompletionsPhase b tok = ChatRouteStep.badRequestModel)
    ∧ (strTruthy b.model = true → b.messages = none →
        chatCompletionsPhase b tok = ChatRouteStep.badRequestMessages)
    ∧ (strTruthy b.model = true → b.messages = some [] →
        chatCompletionsPhase b tok = ChatRouteStep.badRequestMessages)
    ∧ (c.messages = none →
        claudeMessagesPhase c true = ClaudeRouteStep.threwInTranslation)
    ∧ (∀ msgs, c.messages = some msgs →
        claudeMessagesPhase c true =
          ClaudeRouteStep.translated (convertClaudeToGemini msgs c)) := by
  refine ⟨?_, ?_, ?_, ?_, ?_⟩
  · intro h
    rw [chatCompletionsPhase, if_pos h]
  · intro h hm
    rw [chatCompletionsPhase, if_neg (by rw [h]; intro hc; exact Bool.noConfusion hc), hm]
  · intro h hm
    rw [chatCompletionsPhase, if_neg (by rw [h]; intro hc; exact Bool.noConfusion hc), hm]
  · intro hm
    rw [claudeMessagesPhase, if_neg (by intro hc; exact Bool.noConfusion hc), hm]
  · intro msgs hm
    rw [claudeMessagesPhase, if_neg (by intro hc; exact Bool.noConfusion hc), hm]

theorem route_field_validation_witness :
    chatCompletionsPhase ({ model := none, messages := some [()] } : ChatCompletionBodyOpt Unit)
        true = ChatRouteStep.badRequestModel
    ∧ chatCompletionsPhase
        ({ model := some "gpt-4", messages := none } : ChatCompletionBodyOpt Unit) true =
      ChatRouteStep.badRequestMessages
    ∧ claudeMessagesPhase missingMessagesBody true = ClaudeRouteStep.threwInTranslation
    ∧ claudeMessagesPhase missingModelBody true =
        ClaudeRouteStep.translated
          (convertClaudeToGemini
            [{ role := ClaudeRole.user, content := ClaudeContent.str "Hi" }]
            missingModelBody) :=
  ⟨(route_field_validation { model := none, messages := some [()] }
      missingMessagesBody true).1 rfl,
   (route_field_validation { model := some "gpt-4", messages := (none : Option (List Unit)) }
      missingMessagesBody true).2.1 rfl rfl,
   (route_field_validation { model := (none : Option String), messages := some [()] }
      missingMessagesBody true).2.2.2.1 rfl,
   (route_field_validation { model := (none : Option String), messages := some [()] }
      missingModelBody true).2.2.2.2
     [{ role := ClaudeRole.user, content := ClaudeContent.str "Hi" }] rfl⟩

end AntVercel
